import Mathlib

/-!
Verification of the tenant-resolution and connection-routing subsystem of
the Recruiter AI monolith.  JavaScript strings are embedded as `List Char`,
the `DatabaseManager` singleton as an explicit state record, and the
asynchronous effects (connection creation, connection close, the tenant
lookup query) as an environment that chooses success or failure for each
effect.  The definitions follow `src/middleware/tenant.js` and
`src/config/database.js`.
-/

/-- JavaScript strings are modelled as lists of characters. -/
abbrev JStr := List Char

/-- `host.split(':')[0]` — everything before the first colon
(the whole string when no colon is present). -/
def splitPort (h : JStr) : JStr := h.takeWhile (fun c => c ≠ ':')

/-- Matching of the regular expression `^([^.]+)\.<suffix>$` (with `suffix`
taken literally, as in the three patterns of `extractTenantFromHost`):
the capture group is the non-empty dot-free prefix before the first dot,
and the remainder after that dot must equal `suffix` exactly. -/
def matchLabelDot (host suffix : JStr) : Option JStr :=
  let label := host.takeWhile (fun c => c ≠ '.')
  let rest := host.dropWhile (fun c => c ≠ '.')
  if label ≠ [] ∧ rest = '.' :: suffix then some label else none

/-- One iteration of the pattern loop in `extractTenantFromHost`:
return the captured label when the pattern matches and the label is not
the literal `www`; otherwise fall through to the next pattern. -/
def checkPattern (cleanHost suffix : JStr) : Option JStr :=
  match matchLabelDot cleanHost suffix with
  | some m => if m ≠ ("www").toList then some m else none
  | none => none

/-- `extractTenantFromHost` from `src/middleware/tenant.js`: a null or
empty host yields no tenant; otherwise the port is stripped and the
development patterns `<label>.localhost`, `<label>.lvh.me` are tried
before the production pattern `<label>.myapp.com`. -/
def extractTenantFromHost (host : Option JStr) : Option JStr :=
  match host with
  | none => none
  | some h =>
    if h = [] then none
    else
      let cleanHost := splitPort h
      match checkPattern cleanHost (("localhost").toList) with
      | some l => some l
      | none =>
        match checkPattern cleanHost (("lvh.me").toList) with
        | some l => some l
        | none => checkPattern cleanHost (("myapp.com").toList)

/-- The identifier format asserted by the specification (written from the
words of the spec, for comparison with `extractTenantFromHost`): lowercase
alphanumeric plus hyphen, 3 to 30 characters. -/
def specTenantIdentOK (s : JStr) : Bool :=
  decide (3 ≤ s.length) && decide (s.length ≤ 30) &&
    s.all (fun c => (c.isLower && c.isAlpha) || c.isDigit || c = '-')

/-- A JavaScript `Error` value, identified by its message. -/
structure JSError where
  msg : JStr
deriving DecidableEq

/-- A mongoose connection handle: the database name it targets and a
unique instance number distinguishing separately created handles. -/
structure Conn where
  dbName : JStr
  uid : Nat
deriving DecidableEq

/-- The mutable state of the `DatabaseManager` singleton: the tenant
connection `Map` (as an insertion-ordered association list), the
`masterConnection` slot, the log of uids on which `close()` has completed,
and the uid the next successfully created connection will receive. -/
structure DBState where
  connections : List (JStr × Conn)
  masterConnection : Option Conn
  closedUids : List Nat
  nextUid : Nat
deriving DecidableEq

/-- The environment decides the outcome of each external effect: whether
the n-th connection creation fails, whether closing the handle with a
given uid fails, and whether the tenant lookup query for a given
subdomain fails.  `none` means the effect succeeds. -/
structure Env where
  createFails : Nat → Option JSError
  closeFails : Nat → Option JSError
  lookupFails : JStr → Option JSError

/-- `Map.get` on the connection cache. -/
def mapGet (m : List (JStr × Conn)) (k : JStr) : Option Conn :=
  match m with
  | [] => none
  | (k₁, v₁) :: rest => if k₁ = k then some v₁ else mapGet rest k

/-- `Map.set` on the connection cache: replace in place when the key is
present, append otherwise (JavaScript `Map` insertion order). -/
def mapSet (m : List (JStr × Conn)) (k : JStr) (v : Conn) : List (JStr × Conn) :=
  match m with
  | [] => [(k, v)]
  | (k₁, v₁) :: rest => if k₁ = k then (k, v) :: rest else (k₁, v₁) :: mapSet rest k v

/-- `mongoose.createConnection` for a given database name: the
environment either rejects the attempt or produces a fresh handle. -/
def createConnection (env : Env) (st : DBState) (dbName : JStr) :
    Except JSError Conn × DBState :=
  match env.createFails st.nextUid with
  | some e => (Except.error e, st)
  | none =>
    (Except.ok { dbName := dbName, uid := st.nextUid },
     { st with nextUid := st.nextUid + 1 })

/-- `connection.close()`: the environment may reject; on success the uid
is appended to the log of closed handles. -/
def closeConn (env : Env) (st : DBState) (c : Conn) : Except JSError DBState :=
  match env.closeFails c.uid with
  | some e => Except.error e
  | none => Except.ok { st with closedUids := st.closedUids ++ [c.uid] }

/-- `initializeMasterDB` from `src/config/database.js`: create a
connection to the fixed master database name and store it in the
`masterConnection` slot; a creation failure is rethrown after logging,
and the slot is left untouched because the assignment never runs. -/
def initializeMasterDB (env : Env) (st : DBState) : Except JSError Conn × DBState :=
  let dbName := ("master_tenant_db").toList
  match createConnection env st dbName with
  | (Except.error e, st₁) => (Except.error e, st₁)
  | (Except.ok c, st₁) => (Except.ok c, { st₁ with masterConnection := some c })

/-- Whether a JavaScript value of type string-or-null is falsy
(`!tenantId` in `getTenantDB`): null, undefined, or the empty string. -/
def isFalsy : Option JStr → Bool
  | none => true
  | some s => s = []

/-- `getTenantDB` from `src/config/database.js`: reject a falsy tenant
id; return the cached handle when present; otherwise create a connection
to the database named `tenant_` + id, store it under the id, and return
it.  A creation failure is rethrown after logging. -/
def getTenantDB (env : Env) (st : DBState) (tenantId : Option JStr) :
    Except JSError Conn × DBState :=
  if isFalsy tenantId then
    (Except.error ⟨("Tenant ID is required").toList⟩, st)
  else
    let tid := tenantId.getD []
    match mapGet st.connections tid with
    | some c => (Except.ok c, st)
    | none =>
      let dbName := ("tenant_").toList ++ tid
      match createConnection env st dbName with
      | (Except.error e, st₁) => (Except.error e, st₁)
      | (Except.ok c, st₁) =>
        (Except.ok c, { st₁ with connections := mapSet st₁.connections tid c })

/-- The `for (const [tenantId, connection] of this.connections)` loop of
`closeAllConnections`: close each cached handle in insertion order,
stopping at (and returning) the first error. -/
def closeTenantLoop (env : Env) (st : DBState) :
    List (JStr × Conn) → DBState × Option JSError
  | [] => (st, none)
  | (_, c) :: rest =>
    match closeConn env st c with
    | Except.error e => (st, some e)
    | Except.ok st₁ => closeTenantLoop env st₁ rest

/-- `closeAllConnections` from `src/config/database.js`: close the cached
tenant handles in order, clear the map, then close the master handle if
present.  The whole body sits in a `try` whose `catch` only logs, so the
first failure abandons the remaining steps and no error reaches the
caller; the `masterConnection` slot is never set back to null. -/
def closeAllConnections (env : Env) (st : DBState) : DBState :=
  match closeTenantLoop env st st.connections with
  | (st₁, some _) => st₁
  | (st₁, none) =>
    let st₂ := { st₁ with connections := [] }
    match st₂.masterConnection with
    | none => st₂
    | some m =>
      match closeConn env st₂ m with
      | Except.error _ => st₂
      | Except.ok st₃ => st₃

/-- `getMasterConnection` from `src/config/database.js`. -/
def getMasterConnection (st : DBState) : Except JSError Conn :=
  match st.masterConnection with
  | none => Except.error ⟨("Master database not initialized").toList⟩
  | some c => Except.ok c

/-- A tenant record of the master database, restricted to the fields the
middleware query touches. -/
structure TenantRec where
  subdomain : JStr
  isActive : Bool
deriving DecidableEq

/-- `Tenant.findOne({ subdomain: tenantSubdomain, isActive: true })`:
the first record of the master collection matching both fields. -/
def findOneActiveTenant (masterDb : List TenantRec) (sub : JStr) : Option TenantRec :=
  masterDb.find? (fun t => decide (t.subdomain = sub ∧ t.isActive = true))

/-- The parts of an Express request the middleware reads. -/
structure Req where
  host : Option JStr
  path : JStr

/-- `path.startsWith(p)` on embedded strings. -/
def startsWith : JStr → JStr → Bool
  | _, [] => true
  | [], _ :: _ => false
  | c :: cs, p :: ps => c = p && startsWith cs ps

/-- How the middleware ends a request: hand off to the next handler with
a bound database, tenant record and tenant id, or answer with an error
status and error code. -/
inductive Response where
  | next (db : Conn) (tenant : Option TenantRec) (tenantId : Option JStr)
  | errorResponse (status : Nat) (code : JStr)
deriving DecidableEq

/-- Observable calls the middleware makes: master initialization, the
tenant lookup query, and the call to `getTenantDB`. -/
inductive MWEvent where
  | initMaster
  | lookup (sub : JStr)
  | getTenant (sub : JStr)
deriving DecidableEq

/-- The lookup-and-bind tail of the middleware body: record the lookup
query, which the environment may fail; answer 404 `TENANT_NOT_FOUND` when
no active record matches; otherwise record and perform the `getTenantDB`
call and bind its handle together with the tenant record. -/
def lookupStep (env : Env) (masterDb : List TenantRec) (st₁ : DBState)
    (evs₁ : List MWEvent) (sub : JStr) :
    Except JSError Response × DBState × List MWEvent :=
  let evs₂ := evs₁ ++ [MWEvent.lookup sub]
  match env.lookupFails sub with
  | some e => (Except.error e, st₁, evs₂)
  | none =>
    match findOneActiveTenant masterDb sub with
    | none =>
      (Except.ok (Response.errorResponse 404 (("TENANT_NOT_FOUND").toList)),
       st₁, evs₂)
    | some tenant =>
      let evs₃ := evs₂ ++ [MWEvent.getTenant tenant.subdomain]
      match getTenantDB env st₁ (some tenant.subdomain) with
      | (Except.error e, st₂) => (Except.error e, st₂, evs₃)
      | (Except.ok tdb, st₂) =>
        (Except.ok (Response.next tdb (some tenant) (some tenant.subdomain)),
         st₂, evs₃)

/-- The `try` block of `tenantMiddleware` in `src/middleware/tenant.js`:
resolve the subdomain, initialize the master connection if absent, bind
the master handle for no-tenant or super-admin requests, otherwise query
the master database for an active tenant, answer 404 when none matches,
and otherwise bind the tenant connection.  The result carries the thrown
error when a step throws, together with the state reached and the trace
of observable calls. -/
def tenantMiddlewareBody (env : Env) (masterDb : List TenantRec) (st : DBState)
    (req : Req) : Except JSError Response × DBState × List MWEvent :=
  let tenantSubdomain := extractTenantFromHost req.host
  match (if st.masterConnection = none then
           match initializeMasterDB env st with
           | (Except.error e, st₁) => (Except.error e, st₁, [MWEvent.initMaster])
           | (Except.ok _, st₁) => (Except.ok (), st₁, [MWEvent.initMaster])
         else (Except.ok (), st, [])) with
  | (Except.error e, st₁, evs₁) => (Except.error e, st₁, evs₁)
  | (Except.ok _, st₁, evs₁) =>
    match tenantSubdomain with
    | none =>
      (match getMasterConnection st₁ with
       | Except.error e => (Except.error e, st₁, evs₁)
       | Except.ok mc => (Except.ok (Response.next mc none none), st₁, evs₁))
    | some sub =>
      if startsWith req.path (("/api/super-admin").toList) then
        match getMasterConnection st₁ with
        | Except.error e => (Except.error e, st₁, evs₁)
        | Except.ok mc => (Except.ok (Response.next mc none none), st₁, evs₁)
      else
        match getMasterConnection st₁ with
        | Except.error e => (Except.error e, st₁, evs₁)
        | Except.ok _ => lookupStep env masterDb st₁ evs₁ sub

/-- `tenantMiddleware`: the `try` body with its `catch`, which turns any
thrown error into a 500 response with code `TENANT_RESOLUTION_ERROR`. -/
def tenantMiddleware (env : Env) (masterDb : List TenantRec) (st : DBState)
    (req : Req) : Response × DBState × List MWEvent :=
  match tenantMiddlewareBody env masterDb st req with
  | (Except.ok r, st₁, evs) => (r, st₁, evs)
  | (Except.error _, st₁, evs) =>
    (Response.errorResponse 500 (("TENANT_RESOLUTION_ERROR").toList), st₁, evs)

/-- The responses the middleware is specified to produce: a hand-off to
the next handler, the 404 `TENANT_NOT_FOUND` answer, or the 500
`TENANT_RESOLUTION_ERROR` answer. -/
def handledResponse : Response → Bool
  | Response.next _ _ _ => true
  | Response.errorResponse status code =>
    (decide (status = 404) && decide (code = ("TENANT_NOT_FOUND").toList)) ||
    (decide (status = 500) && decide (code = ("TENANT_RESOLUTION_ERROR").toList))

theorem takeWhileAppendAll {α} (p : α → Bool) {l : List α} (r : List α)
    (h : ∀ a ∈ l, p a = true) : (l ++ r).takeWhile p = l ++ r.takeWhile p := by
  induction l with
  | nil => simp
  | cons a l ih =>
    have ha : p a = true := h a (by simp)
    simp only [List.cons_append, List.takeWhile_cons, ha, if_true]
    rw [ih (fun b hb => h b (by simp [hb]))]

theorem dropWhileAppendAll {α} (p : α → Bool) {l : List α} (r : List α)
    (h : ∀ a ∈ l, p a = true) : (l ++ r).dropWhile p = r.dropWhile p := by
  induction l with
  | nil => simp
  | cons a l ih =>
    have ha : p a = true := h a (by simp)
    simp only [List.cons_append, List.dropWhile_cons, ha, if_true]
    exact ih (fun b hb => h b (by simp [hb]))

theorem takeWhileAll {α} (p : α → Bool) {l : List α}
    (h : ∀ a ∈ l, p a = true) : l.takeWhile p = l := by
  have := takeWhileAppendAll p [] h
  simpa using this

theorem memOfMemTakeWhile {α} (p : α → Bool) (l : List α) {a : α}
    (h : a ∈ l.takeWhile p) : a ∈ l := by
  induction l with
  | nil => simp at h
  | cons b l ih =>
    rw [List.takeWhile_cons] at h
    by_cases hb : p b = true
    · rw [if_pos hb] at h
      rcases List.mem_cons.mp h with h₁ | h₂
      · simp [h₁]
      · exact List.mem_cons_of_mem b (ih h₂)
    · rw [if_neg hb] at h
      simp at h

theorem memOfMemDropWhile {α} (p : α → Bool) (l : List α) {a : α}
    (h : a ∈ l.dropWhile p) : a ∈ l := by
  induction l with
  | nil => simp at h
  | cons b l ih =>
    rw [List.dropWhile_cons] at h
    by_cases hb : p b = true
    · rw [if_pos hb] at h
      exact List.mem_cons_of_mem b (ih h)
    · rw [if_neg hb] at h
      exact h

theorem propOfMemTakeWhile {α} (p : α → Bool) (l : List α) {a : α}
    (h : a ∈ l.takeWhile p) : p a = true := by
  induction l with
  | nil => simp at h
  | cons b l ih =>
    rw [List.takeWhile_cons] at h
    by_cases hb : p b = true
    · rw [if_pos hb] at h
      rcases List.mem_cons.mp h with h₁ | h₂
      · rwa [h₁]
      · exact ih h₂
    · rw [if_neg hb] at h
      simp at h

theorem matchLabelDotApp (l d : JStr) (hne : l ≠ []) (hdot : ∀ c ∈ l, c ≠ '.') :
    matchLabelDot (l ++ '.' :: d) d = some l := by
  have hall : ∀ c ∈ l, (fun c => decide (c ≠ '.')) c = true := by
    intro c hc; simpa using hdot c hc
  have h₁ : (l ++ '.' :: d).takeWhile (fun c => c ≠ '.') = l := by
    rw [takeWhileAppendAll _ _ hall]; simp [List.takeWhile_cons]
  have h₂ : (l ++ '.' :: d).dropWhile (fun c => c ≠ '.') = '.' :: d := by
    rw [dropWhileAppendAll _ _ hall]; simp [List.dropWhile_cons]
  unfold matchLabelDot
  simp only [h₁, h₂]
  simp [hne]

theorem matchLabelDotAppNe (l d suffix : JStr) (hdot : ∀ c ∈ l, c ≠ '.')
    (hne : d ≠ suffix) : matchLabelDot (l ++ '.' :: d) suffix = none := by
  have hall : ∀ c ∈ l, (fun c => decide (c ≠ '.')) c = true := by
    intro c hc; simpa using hdot c hc
  have h₂ : (l ++ '.' :: d).dropWhile (fun c => c ≠ '.') = '.' :: d := by
    rw [dropWhileAppendAll _ _ hall]; simp [List.dropWhile_cons]
  unfold matchLabelDot
  simp only [h₂]
  rw [if_neg]
  rintro ⟨-, hcon⟩
  simp only [List.cons.injEq, true_and] at hcon
  exact hne hcon

theorem checkPatternSome (cleanHost suffix l : JStr)
    (h : matchLabelDot cleanHost suffix = some l) (hw : l ≠ ("www").toList) :
    checkPattern cleanHost suffix = some l := by
  unfold checkPattern
  rw [h]
  show (if l ≠ ("www").toList then some l else none) = some l
  exact if_pos hw

theorem checkPatternNone (cleanHost suffix : JStr)
    (h : matchLabelDot cleanHost suffix = none) :
    checkPattern cleanHost suffix = none := by
  unfold checkPattern
  rw [h]

theorem checkPatternInv (cleanHost suffix l : JStr)
    (h : checkPattern cleanHost suffix = some l) :
    matchLabelDot cleanHost suffix = some l ∧ l ≠ ("www").toList := by
  unfold checkPattern at h
  cases hm : matchLabelDot cleanHost suffix with
  | none => rw [hm] at h; simp at h
  | some m =>
    rw [hm] at h
    change (if m ≠ ("www").toList then some m else none) = some l at h
    by_cases hw : m ≠ ("www").toList
    · rw [if_pos hw] at h
      simp only [Option.some.injEq] at h
      subst h
      exact ⟨rfl, hw⟩
    · rw [if_neg hw] at h
      simp at h

theorem matchLabelDotInv (host suffix lbl : JStr)
    (h : matchLabelDot host suffix = some lbl) :
    lbl ≠ [] ∧ lbl = host.takeWhile (fun c => c ≠ '.') ∧
      host.dropWhile (fun c => c ≠ '.') = '.' :: suffix := by
  unfold matchLabelDot at h
  simp only [] at h
  split at h
  · next hcond =>
    simp only [Option.some.injEq] at h
    subst h
    exact ⟨hcond.1, rfl, hcond.2⟩
  · simp at h

theorem matchLabelDotSuffixMem (host suffix lbl : JStr)
    (h : matchLabelDot host suffix = some lbl) : ∀ c ∈ suffix, c ∈ host := by
  intro c hc
  have hrest := (matchLabelDotInv host suffix lbl h).2.2
  have : c ∈ host.dropWhile (fun c => c ≠ '.') := by
    rw [hrest]; exact List.mem_cons_of_mem _ hc
  exact memOfMemDropWhile _ _ this

theorem extractEq (h : JStr) (h0 : h ≠ []) :
    extractTenantFromHost (some h) =
      (match checkPattern (splitPort h) (("localhost").toList) with
       | some l => some l
       | none =>
         match checkPattern (splitPort h) (("lvh.me").toList) with
         | some l => some l
         | none => checkPattern (splitPort h) (("myapp.com").toList)) := by
  simp only [extractTenantFromHost]
  rw [if_neg h0]

theorem extractOfSplit (h l d : JStr) (h0 : h ≠ [])
    (hsp : splitPort h = l ++ '.' :: d)
    (hne : l ≠ []) (hdotl : ∀ c ∈ l, c ≠ '.') (hw : l ≠ ("www").toList)
    (hd : d ∈ [("localhost").toList, ("lvh.me").toList, ("myapp.com").toList]) :
    extractTenantFromHost (some h) = some l := by
  rw [extractEq h h0, hsp]
  fin_cases hd
  · rw [checkPatternSome _ _ _ (matchLabelDotApp l _ hne hdotl) hw]
  · rw [checkPatternNone _ _ (matchLabelDotAppNe l _ _ hdotl (by decide)),
      checkPatternSome _ _ _ (matchLabelDotApp l _ hne hdotl) hw]
  · rw [checkPatternNone _ _ (matchLabelDotAppNe l _ _ hdotl (by decide)),
      checkPatternNone _ _ (matchLabelDotAppNe l _ _ hdotl (by decide)),
      checkPatternSome _ _ _ (matchLabelDotApp l _ hne hdotl) hw]

theorem extractNoneOfChars (h : JStr)
    (hh : ∀ c ∈ h, c.isDigit ∨ c = '.' ∨ c = ':') :
    extractTenantFromHost (some h) = none := by
  by_cases h0 : h = []
  · subst h0; decide
  · have hclean : ∀ c ∈ splitPort h, c.isDigit ∨ c = '.' ∨ c = ':' :=
      fun c hc => hh c (memOfMemTakeWhile _ _ hc)
    have key : ∀ suffix : JStr, ∀ c₀, c₀ ∈ suffix →
        ¬(c₀.isDigit ∨ c₀ = '.' ∨ c₀ = ':') →
        checkPattern (splitPort h) suffix = none := by
      intro suffix c₀ hc₀ hbad
      cases hm : matchLabelDot (splitPort h) suffix with
      | none => exact checkPatternNone _ _ hm
      | some lbl =>
        exact absurd (hclean c₀ (matchLabelDotSuffixMem _ _ _ hm c₀ hc₀)) hbad
    rw [extractEq h h0,
      key (("localhost").toList) 'o' (by decide) (by decide),
      key (("lvh.me").toList) 'v' (by decide) (by decide),
      key (("myapp.com").toList) 'y' (by decide) (by decide)]

/-- C1: for every host `<label>.localhost`, `<label>.lvh.me` or
`<label>.myapp.com`, optionally followed by a `:port` suffix, whose label
is non-empty, dot-free, colon-free and not the literal `www`, the Tenant
Resolver returns exactly that label; and for `www.localhost`,
`www.myapp.com`, bare `localhost`, hosts consisting only of digits, dots
and colons (bare IP addresses, with or without port), the empty host and
the null host, it returns no tenant. -/
theorem C1_tenant_resolver_host_mapping :
    (∀ l d port : JStr,
        d ∈ [("localhost").toList, ("lvh.me").toList, ("myapp.com").toList] →
        l ≠ [] → (∀ c ∈ l, c ≠ '.' ∧ c ≠ ':') → l ≠ ("www").toList →
        extractTenantFromHost (some (l ++ '.' :: d)) = some l ∧
        extractTenantFromHost (some ((l ++ '.' :: d) ++ ':' :: port)) = some l) ∧
    extractTenantFromHost (some (("www.localhost").toList)) = none ∧
    extractTenantFromHost (some (("www.myapp.com").toList)) = none ∧
    extractTenantFromHost (some (("localhost").toList)) = none ∧
    (∀ h : JStr, (∀ c ∈ h, c.isDigit ∨ c = '.' ∨ c = ':') →
        extractTenantFromHost (some h) = none) ∧
    extractTenantFromHost (some []) = none ∧
    extractTenantFromHost none = none := by
  refine ⟨?_, by decide, by decide, by decide, extractNoneOfChars, by decide, rfl⟩
  intro l d port hd hne hchars hw
  have hdotl : ∀ c ∈ l, c ≠ '.' := fun c hc => (hchars c hc).1
  have hnocolon : ∀ c ∈ l ++ '.' :: d, (fun c => decide (c ≠ ':')) c = true := by
    intro c hc
    rcases List.mem_append.mp hc with h | h
    · simpa using (hchars c h).2
    · have hd3 : ∀ c₀ ∈ ('.' :: d), c₀ ≠ ':' := by
        fin_cases hd <;> decide
      simpa using hd3 c h
  have h0 : l ++ '.' :: d ≠ [] := by simp
  have hsp : splitPort (l ++ '.' :: d) = l ++ '.' :: d := takeWhileAll _ hnocolon
  have hspp : splitPort ((l ++ '.' :: d) ++ ':' :: port) = l ++ '.' :: d := by
    unfold splitPort
    rw [takeWhileAppendAll _ _ hnocolon]
    simp [List.takeWhile_cons]
  have h0p : (l ++ '.' :: d) ++ ':' :: port ≠ [] := by simp
  exact ⟨extractOfSplit _ l d h0 hsp hne hdotl hw hd,
    extractOfSplit _ l d h0p hspp hne hdotl hw hd⟩

/-- Witness for C1 at the concrete hosts `acme.localhost:3000` and
`127.0.0.1`. -/
theorem C1_tenant_resolver_host_mapping_witness :
    extractTenantFromHost
        (some ((("acme").toList ++ '.' :: ("localhost").toList) ++
          ':' :: ("3000").toList)) = some (("acme").toList) ∧
    extractTenantFromHost (some (("127.0.0.1").toList)) = none :=
  ⟨(C1_tenant_resolver_host_mapping.1 (("acme").toList) (("localhost").toList)
      (("3000").toList) (by decide) (by decide) (by decide) (by decide)).2,
   C1_tenant_resolver_host_mapping.2.2.2.2.1 (("127.0.0.1").toList) (by decide)⟩

/-- C9 counterexample: the host `A.localhost` resolves to the label `A`,
which is neither lowercase nor 3 to 30 characters long, so the resolver
does not only return identifiers in the format the claim asserts. -/
theorem C9_resolver_output_format_counterexample :
    extractTenantFromHost (some (("A.localhost").toList)) = some (("A").toList) ∧
    specTenantIdentOK (("A").toList) = false := by
  decide

/-- C9 amended: every identifier the Tenant Resolver returns is a
non-empty string containing neither a dot nor a colon and differing from
the literal `www`; the 3-to-30-character lowercase-alphanumeric-plus-
hyphen format asserted by the specification is not enforced by the
resolver. -/
theorem C9_resolver_output_shape_amended (host : Option JStr) (l : JStr)
    (h : extractTenantFromHost host = some l) :
    l ≠ [] ∧ (∀ c ∈ l, c ≠ '.' ∧ c ≠ ':') ∧ l ≠ ("www").toList := by
  cases host with
  | none => simp [extractTenantFromHost] at h
  | some hs =>
    by_cases h0 : hs = []
    · subst h0
      simp [extractTenantFromHost] at h
    · rw [extractEq hs h0] at h
      have hcp : ∃ suffix, checkPattern (splitPort hs) suffix = some l := by
        cases hc1 : checkPattern (splitPort hs) (("localhost").toList) with
        | some m => rw [hc1] at h; exact ⟨_, by rw [hc1]; exact h⟩
        | none =>
          rw [hc1] at h
          cases hc2 : checkPattern (splitPort hs) (("lvh.me").toList) with
          | some m => rw [hc2] at h; exact ⟨_, by rw [hc2]; exact h⟩
          | none =>
            rw [hc2] at h
            exact ⟨_, h⟩
      obtain ⟨suffix, hcp⟩ := hcp
      obtain ⟨hm, hw⟩ := checkPatternInv _ _ _ hcp
      obtain ⟨hlne, hlbl, -⟩ := matchLabelDotInv _ _ _ hm
      refine ⟨hlne, ?_, hw⟩
      intro c hc
      constructor
      · have hmem : c ∈ (splitPort hs).takeWhile (fun c => decide (c ≠ '.')) := by
          rw [← hlbl]; exact hc
        simpa using propOfMemTakeWhile _ _ hmem
      · have hmem : c ∈ splitPort hs := by
          apply memOfMemTakeWhile (fun c => decide (c ≠ '.'))
          rw [← hlbl]; exact hc
        have hp : (fun c => decide (c ≠ ':')) c = true :=
          propOfMemTakeWhile _ hs hmem
        simpa using hp

/-- Witness for the amended C9 at the host `acme.lvh.me`. -/
theorem C9_resolver_output_shape_amended_witness :
    (("acme").toList : JStr) ≠ [] ∧
    (∀ c ∈ (("acme").toList : JStr), c ≠ '.' ∧ c ≠ ':') ∧
    (("acme").toList : JStr) ≠ ("www").toList :=
  C9_resolver_output_shape_amended (some (("acme.lvh.me").toList))
    (("acme").toList) (by decide)

theorem mapGetMapSet (m : List (JStr × Conn)) (k : JStr) (v : Conn) :
    mapGet (mapSet m k v) k = some v := by
  induction m with
  | nil => simp [mapSet, mapGet]
  | cons p rest ih =>
    obtain ⟨k₁, v₁⟩ := p
    by_cases hk : k₁ = k
    · simp [mapSet, hk, mapGet]
    · simp [mapSet, hk, mapGet, ih]

theorem closeTenantLoopPreserves (env : Env) :
    ∀ (l : List (JStr × Conn)) (st : DBState),
      ((closeTenantLoop env st l).1).connections = st.connections ∧
      ((closeTenantLoop env st l).1).masterConnection = st.masterConnection ∧
      ((closeTenantLoop env st l).1).nextUid = st.nextUid := by
  intro l
  induction l with
  | nil => intro st; exact ⟨rfl, rfl, rfl⟩
  | cons p rest ih =>
    intro st
    obtain ⟨k, c⟩ := p
    cases hc : env.closeFails c.uid with
    | some e => simp [closeTenantLoop, closeConn, hc]
    | none =>
      simp only [closeTenantLoop, closeConn, hc]
      exact ih _

theorem closeTenantLoopNoFail (env : Env) (hok : ∀ u, env.closeFails u = none) :
    ∀ (l : List (JStr × Conn)) (st : DBState), (closeTenantLoop env st l).2 = none := by
  intro l
  induction l with
  | nil => intro st; rfl
  | cons p rest ih =>
    intro st
    obtain ⟨k, c⟩ := p
    simp only [closeTenantLoop, closeConn, hok c.uid]
    exact ih _

/-- C3: a call of `getTenantDB` that returned handle `c` is followed, when
repeated with the same id, by the same handle `c` with the state (cache
and creation counter) unchanged; and on a cache miss with a working
connection, the created handle targets the database `tenant_` + id and is
stored in the cache under the id. -/
theorem C3_tenant_handle_cache :
    (∀ (env : Env) (st : DBState) (id : JStr) (c : Conn) (st₁ : DBState),
        getTenantDB env st (some id) = (Except.ok c, st₁) →
        getTenantDB env st₁ (some id) = (Except.ok c, st₁)) ∧
    (∀ (env : Env) (st : DBState) (id : JStr), id ≠ [] →
        mapGet st.connections id = none →
        env.createFails st.nextUid = none →
        ∃ (c : Conn) (st₁ : DBState),
          getTenantDB env st (some id) = (Except.ok c, st₁) ∧
          c.dbName = ("tenant_").toList ++ id ∧
          mapGet st₁.connections id = some c) := by
  constructor
  · intro env st id c st₁ hcall
    by_cases hid : id = []
    · exfalso
      simp [getTenantDB, isFalsy, hid] at hcall
    · cases hhit : mapGet st.connections id with
      | some c₀ =>
        have h1 : c₀ = c ∧ st = st₁ := by
          simpa [getTenantDB, isFalsy, hid, hhit] using hcall
        obtain ⟨rfl, rfl⟩ := h1
        simp [getTenantDB, isFalsy, hid, hhit]
      | none =>
        cases hcr : env.createFails st.nextUid with
        | some e =>
          exfalso
          simp [getTenantDB, isFalsy, hid, hhit, createConnection, hcr] at hcall
        | none =>
          have h1 : c = ⟨("tenant_").toList ++ id, st.nextUid⟩ ∧
              st₁ = { st with
                      connections :=
                        mapSet st.connections id ⟨("tenant_").toList ++ id, st.nextUid⟩,
                      nextUid := st.nextUid + 1 } := by
            have := hcall
            simp [getTenantDB, isFalsy, hid, hhit, createConnection, hcr] at this
            exact ⟨this.1.symm, this.2.symm⟩
          obtain ⟨rfl, rfl⟩ := h1
          simp [getTenantDB, isFalsy, hid, mapGetMapSet]
  · intro env st id hid hmiss hcr
    refine ⟨⟨("tenant_").toList ++ id, st.nextUid⟩,
      { st with
        connections := mapSet st.connections id ⟨("tenant_").toList ++ id, st.nextUid⟩,
        nextUid := st.nextUid + 1 }, ?_, rfl, mapGetMapSet _ _ _⟩
    simp [getTenantDB, isFalsy, hid, hmiss, createConnection, hcr]

/-- Witness for C3: a first call on an empty cache creates and stores
`tenant_acme`, and repeating the call returns the same handle unchanged. -/
theorem C3_tenant_handle_cache_witness :
    (∃ (c : Conn) (st₁ : DBState),
        getTenantDB ⟨fun _ => none, fun _ => none, fun _ => none⟩ ⟨[], none, [], 0⟩
            (some (("acme").toList)) = (Except.ok c, st₁) ∧
        c.dbName = ("tenant_").toList ++ ("acme").toList ∧
        mapGet st₁.connections (("acme").toList) = some c) ∧
    getTenantDB ⟨fun _ => none, fun _ => none, fun _ => none⟩
        ⟨[((("acme").toList), ⟨("tenant_acme").toList, 0⟩)], none, [], 1⟩
        (some (("acme").toList)) =
      (Except.ok ⟨("tenant_acme").toList, 0⟩,
       ⟨[((("acme").toList), ⟨("tenant_acme").toList, 0⟩)], none, [], 1⟩) :=
  ⟨C3_tenant_handle_cache.2 ⟨fun _ => none, fun _ => none, fun _ => none⟩
      ⟨[], none, [], 0⟩ (("acme").toList) (by decide) rfl rfl,
   C3_tenant_handle_cache.1 ⟨fun _ => none, fun _ => none, fun _ => none⟩
      ⟨[], none, [], 0⟩ (("acme").toList) ⟨("tenant_acme").toList, 0⟩
      ⟨[((("acme").toList), ⟨("tenant_acme").toList, 0⟩)], none, [], 1⟩ rfl⟩

/-- C10: for a null, undefined or empty-string tenant id, `getTenantDB`
throws `Tenant ID is required` before any connection creation, and the
state — the connection cache included — is unchanged. -/
theorem C10_falsy_tenant_id (env : Env) (st : DBState) (tenantId : Option JStr)
    (h : tenantId = none ∨ tenantId = some []) :
    getTenantDB env st tenantId =
      (Except.error ⟨("Tenant ID is required").toList⟩, st) := by
  rcases h with rfl | rfl <;> rfl

/-- Witness for C10 at the empty-string id. -/
theorem C10_falsy_tenant_id_witness :
    getTenantDB ⟨fun _ => none, fun _ => none, fun _ => none⟩
        ⟨[], none, [], 0⟩ (some []) =
      (Except.error ⟨("Tenant ID is required").toList⟩, ⟨[], none, [], 0⟩) :=
  C10_falsy_tenant_id _ _ _ (Or.inr rfl)

/-- C8: `getMasterConnection` returns the cached master handle whenever
the slot is filled (in particular after a successful
`initializeMasterDB`), and throws `Master database not initialized`
whenever the slot is empty — including after a failed
`initializeMasterDB`, which leaves the slot empty. -/
theorem C8_master_handle_access :
    (∀ (st : DBState) (c : Conn), st.masterConnection = some c →
        getMasterConnection st = Except.ok c) ∧
    (∀ st : DBState, st.masterConnection = none →
        getMasterConnection st =
          Except.error ⟨("Master database not initialized").toList⟩) ∧
    (∀ (env : Env) (st : DBState) (c : Conn) (st₁ : DBState),
        initializeMasterDB env st = (Except.ok c, st₁) →
        getMasterConnection st₁ = Except.ok c) ∧
    (∀ (env : Env) (st : DBState) (e : JSError) (st₁ : DBState),
        st.masterConnection = none →
        initializeMasterDB env st = (Except.error e, st₁) →
        st₁.masterConnection = none ∧
        getMasterConnection st₁ =
          Except.error ⟨("Master database not initialized").toList⟩) := by
  refine ⟨?_, ?_, ?_, ?_⟩
  · intro st c h
    simp [getMasterConnection, h]
  · intro st h
    simp [getMasterConnection, h]
  · intro env st c st₁ h
    cases hcr : env.createFails st.nextUid with
    | some e =>
      exfalso
      simp [initializeMasterDB, createConnection, hcr] at h
    | none =>
      have h1 : st₁ = { st with
          masterConnection := some ⟨("master_tenant_db").toList, st.nextUid⟩,
          nextUid := st.nextUid + 1 } ∧
          c = ⟨("master_tenant_db").toList, st.nextUid⟩ := by
        have := h
        simp [initializeMasterDB, createConnection, hcr] at this
        exact ⟨this.2.symm, this.1.symm⟩
      obtain ⟨rfl, rfl⟩ := h1
      simp [getMasterConnection]
  · intro env st e st₁ h0 h
    cases hcr : env.createFails st.nextUid with
    | some e₀ =>
      have h1 : st₁ = st := by
        have := h
        simp [initializeMasterDB, createConnection, hcr] at this
        exact this.2.symm
      subst h1
      exact ⟨h0, by simp [getMasterConnection, h0]⟩
    | none =>
      exfalso
      simp [initializeMasterDB, createConnection, hcr] at h

/-- Witness for C8: after a failed initialization on an uninitialized
state, the slot is empty and access throws; after a successful one,
access returns the created handle. -/
theorem C8_master_handle_access_witness :
    ((⟨[], none, [], 0⟩ : DBState).masterConnection = none ∧
      getMasterConnection ⟨[], none, [], 0⟩ =
        Except.error ⟨("Master database not initialized").toList⟩) ∧
    getMasterConnection ⟨[], some ⟨("master_tenant_db").toList, 0⟩, [], 1⟩ =
      Except.ok ⟨("master_tenant_db").toList, 0⟩ :=
  ⟨C8_master_handle_access.2.2.2 ⟨fun _ => some ⟨("down").toList⟩, fun _ => none, fun _ => none⟩
      ⟨[], none, [], 0⟩ ⟨("down").toList⟩ ⟨[], none, [], 0⟩ rfl rfl,
   C8_master_handle_access.2.2.1 ⟨fun _ => none, fun _ => none, fun _ => none⟩
      ⟨[], none, [], 0⟩ ⟨("master_tenant_db").toList, 0⟩
      ⟨[], some ⟨("master_tenant_db").toList, 0⟩, [], 1⟩ rfl⟩

theorem closeAllNoFail (env : Env) (hok : ∀ u, env.closeFails u = none)
    (s : DBState) :
    (closeAllConnections env s).connections = [] ∧
    (closeAllConnections env s).masterConnection = s.masterConnection := by
  have hsnd := closeTenantLoopNoFail env hok s.connections s
  have hpres := closeTenantLoopPreserves env s.connections s
  unfold closeAllConnections
  cases hloop : closeTenantLoop env s s.connections with
  | mk st₁ oe =>
    rw [hloop] at hsnd hpres
    simp only at hsnd hpres
    subst hsnd
    cases hm : st₁.masterConnection with
    | none =>
      have hs : s.masterConnection = none := hpres.2.1.symm.trans hm
      simp [hm, hs]
    | some m =>
      have hs : s.masterConnection = some m := hpres.2.1.symm.trans hm
      simp [closeConn, hok m.uid, hm, hs]

/-- C4 counterexample: on a state whose master handle is set and with
every close succeeding, `closeAllConnections` leaves the
`masterConnection` slot filled — the slot is never cleared, contrary to
the claim that it holds no handle afterwards. -/
theorem C4_close_all_counterexample :
    (closeAllConnections ⟨fun _ => none, fun _ => none, fun _ => none⟩
        ⟨[], some ⟨("master_tenant_db").toList, 0⟩, [], 1⟩).masterConnection ≠
      none := by
  decide

/-- C4 amended: after `closeAllConnections` with all closes succeeding,
the tenant cache holds zero entries, but the master-handle slot still
holds the (now closed) handle it held before; a second call raises no
error (the registry catches every close error internally and the
function always returns a state), again leaves the cache empty, and
leaves the slot unchanged, although it does invoke close on the master
handle a second time. -/
theorem C4_close_all_amended (env : Env) (st : DBState)
    (hok : ∀ u, env.closeFails u = none) :
    (closeAllConnections env st).connections = [] ∧
    (closeAllConnections env st).masterConnection = st.masterConnection ∧
    (closeAllConnections env (closeAllConnections env st)).connections = [] ∧
    (closeAllConnections env (closeAllConnections env st)).masterConnection =
      st.masterConnection :=
  ⟨(closeAllNoFail env hok st).1, (closeAllNoFail env hok st).2,
   (closeAllNoFail env hok (closeAllConnections env st)).1,
   (closeAllNoFail env hok (closeAllConnections env st)).2.trans
     (closeAllNoFail env hok st).2⟩

/-- Witness for the amended C4 on a state with one cached tenant handle
and a master handle. -/
theorem C4_close_all_amended_witness :
    (closeAllConnections ⟨fun _ => none, fun _ => none, fun _ => none⟩
        ⟨[((("a").toList), ⟨("tenant_a").toList, 0⟩)],
         some ⟨("master_tenant_db").toList, 1⟩, [], 2⟩).connections = [] ∧
    (closeAllConnections ⟨fun _ => none, fun _ => none, fun _ => none⟩
        ⟨[((("a").toList), ⟨("tenant_a").toList, 0⟩)],
         some ⟨("master_tenant_db").toList, 1⟩, [], 2⟩).masterConnection =
      (⟨[((("a").toList), ⟨("tenant_a").toList, 0⟩)],
        some ⟨("master_tenant_db").toList, 1⟩, [], 2⟩ : DBState).masterConnection ∧
    (closeAllConnections ⟨fun _ => none, fun _ => none, fun _ => none⟩
        (closeAllConnections ⟨fun _ => none, fun _ => none, fun _ => none⟩
          ⟨[((("a").toList), ⟨("tenant_a").toList, 0⟩)],
           some ⟨("master_tenant_db").toList, 1⟩, [], 2⟩)).connections = [] ∧
    (closeAllConnections ⟨fun _ => none, fun _ => none, fun _ => none⟩
        (closeAllConnections ⟨fun _ => none, fun _ => none, fun _ => none⟩
          ⟨[((("a").toList), ⟨("tenant_a").toList, 0⟩)],
           some ⟨("master_tenant_db").toList, 1⟩, [], 2⟩)).masterConnection =
      (⟨[((("a").toList), ⟨("tenant_a").toList, 0⟩)],
        some ⟨("master_tenant_db").toList, 1⟩, [], 2⟩ : DBState).masterConnection :=
  C4_close_all_amended ⟨fun _ => none, fun _ => none, fun _ => none⟩
    ⟨[((("a").toList), ⟨("tenant_a").toList, 0⟩)],
     some ⟨("master_tenant_db").toList, 1⟩, [], 2⟩ (fun _ => rfl)

/-- C5 counterexample: with two cached tenant handles and a master
handle, a failure closing the first tenant handle makes
`closeAllConnections` return the state entirely unchanged: the second
tenant handle and the master handle are never closed (the closed-handle
log stays empty), the cache is not cleared, and no error reaches the
caller — refuting the claim that one failure does not prevent the
remaining close attempts and that failures are reported. -/
theorem C5_close_failure_counterexample :
    closeAllConnections
        ⟨fun _ => none,
         fun u => if u = 0 then some ⟨("boom").toList⟩ else none,
         fun _ => none⟩
        ⟨[((("a").toList), ⟨("tenant_a").toList, 0⟩),
          ((("b").toList), ⟨("tenant_b").toList, 1⟩)],
         some ⟨("master_tenant_db").toList, 2⟩, [], 3⟩ =
      ⟨[((("a").toList), ⟨("tenant_a").toList, 0⟩),
        ((("b").toList), ⟨("tenant_b").toList, 1⟩)],
       some ⟨("master_tenant_db").toList, 2⟩, [], 3⟩ := by
  decide

/-- C5 amended: when closing one cached tenant handle fails, the close
loop stops there: `closeAllConnections` returns the state reached at the
failure, so the remaining tenant handles and the master handle are not
closed, the cache keeps all its entries, and the error is caught and
only logged inside the registry instead of propagating to the caller. -/
theorem C5_close_failure_amended (env : Env) (st st₁ : DBState) (e : JSError)
    (h : closeTenantLoop env st st.connections = (st₁, some e)) :
    closeAllConnections env st = st₁ ∧
    st₁.connections = st.connections ∧
    st₁.masterConnection = st.masterConnection := by
  have hpres := closeTenantLoopPreserves env st.connections st
  rw [h] at hpres
  simp only at hpres
  refine ⟨?_, hpres.1, hpres.2.1⟩
  unfold closeAllConnections
  rw [h]

/-- Witness for the amended C5 at the two-tenant state whose first close
fails. -/
theorem C5_close_failure_amended_witness :
    closeAllConnections
        ⟨fun _ => none,
         fun u => if u = 0 then some ⟨("boom").toList⟩ else none,
         fun _ => none⟩
        ⟨[((("a").toList), ⟨("tenant_a").toList, 0⟩),
          ((("b").toList), ⟨("tenant_b").toList, 1⟩)],
         some ⟨("master_tenant_db").toList, 2⟩, [], 3⟩ =
      ⟨[((("a").toList), ⟨("tenant_a").toList, 0⟩),
        ((("b").toList), ⟨("tenant_b").toList, 1⟩)],
       some ⟨("master_tenant_db").toList, 2⟩, [], 3⟩ ∧
    (⟨[((("a").toList), ⟨("tenant_a").toList, 0⟩),
       ((("b").toList), ⟨("tenant_b").toList, 1⟩)],
      some ⟨("master_tenant_db").toList, 2⟩, [], 3⟩ : DBState).closedUids = [] :=
  ⟨(C5_close_failure_amended
      ⟨fun _ => none,
       fun u => if u = 0 then some ⟨("boom").toList⟩ else none,
       fun _ => none⟩
      ⟨[((("a").toList), ⟨("tenant_a").toList, 0⟩),
        ((("b").toList), ⟨("tenant_b").toList, 1⟩)],
       some ⟨("master_tenant_db").toList, 2⟩, [], 3⟩
      ⟨[((("a").toList), ⟨("tenant_a").toList, 0⟩),
        ((("b").toList), ⟨("tenant_b").toList, 1⟩)],
       some ⟨("master_tenant_db").toList, 2⟩, [], 3⟩
      ⟨("boom").toList⟩ rfl).1, rfl⟩

theorem findOneActiveNone (mdb : List TenantRec) (sub : JStr)
    (h : ∀ t ∈ mdb, t.subdomain = sub → t.isActive = false) :
    findOneActiveTenant mdb sub = none := by
  unfold findOneActiveTenant
  rw [List.find?_eq_none]
  intro t ht
  simp only [decide_eq_true_eq]
  rintro ⟨hs, ha⟩
  rw [h t ht hs] at ha
  simp at ha

theorem middleware404 (env : Env) (mdb : List TenantRec) (st : DBState)
    (req : Req) (sub : JStr)
    (hres : extractTenantFromHost req.host = some sub)
    (hpath : startsWith req.path (("/api/super-admin").toList) = false)
    (hinit : st.masterConnection = none → env.createFails st.nextUid = none)
    (hlf : env.lookupFails sub = none)
    (hfind : findOneActiveTenant mdb sub = none) :
    tenantMiddleware env mdb st req =
      (Response.errorResponse 404 (("TENANT_NOT_FOUND").toList),
       (if st.masterConnection = none then
          { st with
            masterConnection := some ⟨("master_tenant_db").toList, st.nextUid⟩,
            nextUid := st.nextUid + 1 }
        else st),
       (if st.masterConnection = none then [MWEvent.initMaster] else []) ++
         [MWEvent.lookup sub]) := by
  simp at hpath
  by_cases hmc : st.masterConnection = none
  · simp [tenantMiddleware, tenantMiddlewareBody, lookupStep, hmc, hres, hpath,
      initializeMasterDB, createConnection, hinit hmc, getMasterConnection,
      hlf, hfind]
  · obtain ⟨mc, hmc'⟩ := Option.ne_none_iff_exists'.mp hmc
    simp [tenantMiddleware, tenantMiddlewareBody, lookupStep, hmc', hres, hpath,
      getMasterConnection, hlf, hfind]

/-- C2: when the host resolves to an identifier on a non-administrative
path and the master database holds no active tenant record with that
identifier — whether no record with the identifier exists at all or an
inactive one exists — the two runs produce the same result (response,
state and call trace), the response is the 404 `TENANT_NOT_FOUND` answer,
and `getTenantDB` is never called. -/
theorem C2_unknown_inactive_indistinguishable (env : Env)
    (mdb₁ mdb₂ : List TenantRec) (st : DBState) (req : Req) (sub : JStr)
    (hres : extractTenantFromHost req.host = some sub)
    (hpath : startsWith req.path (("/api/super-admin").toList) = false)
    (hinit : st.masterConnection = none → env.createFails st.nextUid = none)
    (hlf : env.lookupFails sub = none)
    (h₁ : ∀ t ∈ mdb₁, t.subdomain = sub → t.isActive = false)
    (h₂ : ∀ t ∈ mdb₂, t.subdomain = sub → t.isActive = false) :
    tenantMiddleware env mdb₁ st req = tenantMiddleware env mdb₂ st req ∧
    (tenantMiddleware env mdb₁ st req).1 =
      Response.errorResponse 404 (("TENANT_NOT_FOUND").toList) ∧
    (∀ s, MWEvent.getTenant s ∉ (tenantMiddleware env mdb₁ st req).2.2) := by
  have hf₁ : findOneActiveTenant mdb₁ sub = none := findOneActiveNone mdb₁ sub h₁
  have hf₂ : findOneActiveTenant mdb₂ sub = none := findOneActiveNone mdb₂ sub h₂
  rw [middleware404 env mdb₁ st req sub hres hpath hinit hlf hf₁,
    middleware404 env mdb₂ st req sub hres hpath hinit hlf hf₂]
  refine ⟨rfl, rfl, ?_⟩
  intro s
  by_cases hmc : st.masterConnection = none <;> simp [hmc]

/-- Witness for C2: the host `ghost.myapp.com` against an empty master
collection and against one holding only a deactivated `ghost` record. -/
theorem C2_unknown_inactive_indistinguishable_witness :
    tenantMiddleware ⟨fun _ => none, fun _ => none, fun _ => none⟩ []
        ⟨[], none, [], 0⟩ ⟨some (("ghost.myapp.com").toList), ("/api/jobs").toList⟩ =
      tenantMiddleware ⟨fun _ => none, fun _ => none, fun _ => none⟩
        [⟨("ghost").toList, false⟩]
        ⟨[], none, [], 0⟩ ⟨some (("ghost.myapp.com").toList), ("/api/jobs").toList⟩ ∧
    (tenantMiddleware ⟨fun _ => none, fun _ => none, fun _ => none⟩ []
        ⟨[], none, [], 0⟩
        ⟨some (("ghost.myapp.com").toList), ("/api/jobs").toList⟩).1 =
      Response.errorResponse 404 (("TENANT_NOT_FOUND").toList) ∧
    (∀ s, MWEvent.getTenant s ∉
      (tenantMiddleware ⟨fun _ => none, fun _ => none, fun _ => none⟩ []
        ⟨[], none, [], 0⟩
        ⟨some (("ghost.myapp.com").toList), ("/api/jobs").toList⟩).2.2) :=
  C2_unknown_inactive_indistinguishable
    ⟨fun _ => none, fun _ => none, fun _ => none⟩ [] [⟨("ghost").toList, false⟩]
    ⟨[], none, [], 0⟩ ⟨some (("ghost.myapp.com").toList), ("/api/jobs").toList⟩
    (("ghost").toList) (by decide) (by decide) (fun _ => rfl) rfl
    (by simp) (by decide)

/-- C6: when resolution yields no tenant or the path carries the
`/api/super-admin` prefix, the middleware binds the master handle as the
request database with a null tenant context, and neither the tenant
lookup query nor `getTenantDB` is ever invoked. -/
theorem C6_master_binding (env : Env) (mdb : List TenantRec) (st : DBState)
    (req : Req)
    (h : extractTenantFromHost req.host = none ∨
      startsWith req.path (("/api/super-admin").toList) = true)
    (hinit : st.masterConnection = none → env.createFails st.nextUid = none) :
    ∃ (mc : Conn) (st₁ : DBState) (evs : List MWEvent),
      tenantMiddleware env mdb st req = (Response.next mc none none, st₁, evs) ∧
      st₁.masterConnection = some mc ∧
      (∀ s, MWEvent.lookup s ∉ evs) ∧
      (∀ s, MWEvent.getTenant s ∉ evs) := by
  by_cases hmc : st.masterConnection = none
  · refine ⟨⟨("master_tenant_db").toList, st.nextUid⟩,
      { st with
        masterConnection := some ⟨("master_tenant_db").toList, st.nextUid⟩,
        nextUid := st.nextUid + 1 },
      [MWEvent.initMaster], ?_, rfl, by simp, by simp⟩
    rcases h with hres | hpath
    · simp [tenantMiddleware, tenantMiddlewareBody, hmc, hres,
        initializeMasterDB, createConnection, hinit hmc, getMasterConnection]
    · simp at hpath
      cases hres : extractTenantFromHost req.host with
      | none =>
        simp [tenantMiddleware, tenantMiddlewareBody, hmc, hres,
          initializeMasterDB, createConnection, hinit hmc, getMasterConnection]
      | some sub =>
        simp [tenantMiddleware, tenantMiddlewareBody, hmc, hres, hpath,
          initializeMasterDB, createConnection, hinit hmc, getMasterConnection]
  · obtain ⟨mc, hmc'⟩ := Option.ne_none_iff_exists'.mp hmc
    refine ⟨mc, st, [], ?_, hmc', by simp, by simp⟩
    rcases h with hres | hpath
    · simp [tenantMiddleware, tenantMiddlewareBody, hmc', hres,
        getMasterConnection]
    · simp at hpath
      cases hres : extractTenantFromHost req.host with
      | none =>
        simp [tenantMiddleware, tenantMiddlewareBody, hmc', hres,
          getMasterConnection]
      | some sub =>
        simp [tenantMiddleware, tenantMiddlewareBody, hmc', hres, hpath,
          getMasterConnection]

/-- Witness for C6: a hostless request to `/api/super-admin/tenants` on
an initialized state. -/
theorem C6_master_binding_witness :
    ∃ (mc : Conn) (st₁ : DBState) (evs : List MWEvent),
      tenantMiddleware ⟨fun _ => none, fun _ => none, fun _ => none⟩ []
          ⟨[], some ⟨("master_tenant_db").toList, 0⟩, [], 1⟩
          ⟨none, ("/api/super-admin/tenants").toList⟩ =
        (Response.next mc none none, st₁, evs) ∧
      st₁.masterConnection = some mc ∧
      (∀ s, MWEvent.lookup s ∉ evs) ∧
      (∀ s, MWEvent.getTenant s ∉ evs) :=
  C6_master_binding ⟨fun _ => none, fun _ => none, fun _ => none⟩ []
    ⟨[], some ⟨("master_tenant_db").toList, 0⟩, [], 1⟩
    ⟨none, ("/api/super-admin/tenants").toList⟩ (Or.inl rfl)
    (fun hcon => absurd hcon (by decide))

theorem lookupStepOkShape (env : Env) (masterDb : List TenantRec)
    (st₁ : DBState) (evs₁ : List MWEvent) (sub : JStr)
    (r : Response) (st₂ : DBState) (evs₂ : List MWEvent)
    (h : lookupStep env masterDb st₁ evs₁ sub = (Except.ok r, st₂, evs₂)) :
    (∃ db t tid, r = Response.next db t tid) ∨
    r = Response.errorResponse 404 (("TENANT_NOT_FOUND").toList) := by
  cases hlf : env.lookupFails sub with
  | some e => simp [lookupStep, hlf] at h
  | none =>
    cases hfind : findOneActiveTenant masterDb sub with
    | none =>
      simp only [lookupStep, hlf, hfind] at h
      refine Or.inr ?_
      simp_all
    | some tenant =>
      cases hg : getTenantDB env st₁ (some tenant.subdomain) with
      | mk exr st₃ =>
        cases exr with
        | error e => simp [lookupStep, hlf, hfind, hg] at h
        | ok tdb =>
          simp only [lookupStep, hlf, hfind, hg] at h
          exact Or.inl ⟨tdb, some tenant, some tenant.subdomain, by simp_all⟩

theorem bodyOkShape (env : Env) (mdb : List TenantRec) (st : DBState) (req : Req)
    (r : Response) (st₁ : DBState) (evs : List MWEvent)
    (h : tenantMiddlewareBody env mdb st req = (Except.ok r, st₁, evs)) :
    (∃ db t tid, r = Response.next db t tid) ∨
    r = Response.errorResponse 404 (("TENANT_NOT_FOUND").toList) := by
  by_cases hmc : st.masterConnection = none
  · cases hcr : env.createFails st.nextUid with
    | some e =>
      simp [tenantMiddlewareBody, hmc, initializeMasterDB, createConnection, hcr] at h
    | none =>
      cases hres : extractTenantFromHost req.host with
      | none =>
        simp [tenantMiddlewareBody, hmc, initializeMasterDB, createConnection,
          hcr, hres, getMasterConnection] at h
        exact Or.inl ⟨_, _, _, h.1.symm⟩
      | some sub =>
        cases hsw : startsWith req.path (("/api/super-admin").toList) with
        | true =>
          simp at hsw
          simp [tenantMiddlewareBody, hmc, initializeMasterDB, createConnection,
            hcr, hres, hsw, getMasterConnection] at h
          exact Or.inl ⟨_, _, _, h.1.symm⟩
        | false =>
          simp at hsw
          simp [tenantMiddlewareBody, hmc, initializeMasterDB, createConnection,
            hcr, hres, hsw, getMasterConnection] at h
          exact lookupStepOkShape _ _ _ _ _ _ _ _ h
  · obtain ⟨mc, hmc'⟩ := Option.ne_none_iff_exists'.mp hmc
    cases hres : extractTenantFromHost req.host with
    | none =>
      simp [tenantMiddlewareBody, hmc', hres, getMasterConnection] at h
      exact Or.inl ⟨_, _, _, h.1.symm⟩
    | some sub =>
      cases hsw : startsWith req.path (("/api/super-admin").toList) with
      | true =>
        simp at hsw
        simp [tenantMiddlewareBody, hmc', hres, hsw, getMasterConnection] at h
        exact Or.inl ⟨_, _, _, h.1.symm⟩
      | false =>
        simp at hsw
        simp [tenantMiddlewareBody, hmc', hres, hsw, getMasterConnection] at h
        exact lookupStepOkShape _ _ _ _ _ _ _ _ h

/-- C7: every error thrown inside the middleware body is caught by the
surrounding catch and converted into the 500 `TENANT_RESOLUTION_ERROR`
response, and the middleware always completes with one of its specified
responses (a hand-off, the 404 answer, or the 500 answer) — no exception
escapes `tenantMiddleware`. -/
theorem C7_errors_converted :
    (∀ (env : Env) (mdb : List TenantRec) (st : DBState) (req : Req)
        (e : JSError) (st₁ : DBState) (evs : List MWEvent),
        tenantMiddlewareBody env mdb st req = (Except.error e, st₁, evs) →
        tenantMiddleware env mdb st req =
          (Response.errorResponse 500 (("TENANT_RESOLUTION_ERROR").toList),
           st₁, evs)) ∧
    (∀ (env : Env) (mdb : List TenantRec) (st : DBState) (req : Req),
        handledResponse (tenantMiddleware env mdb st req).1 = true) := by
  constructor
  · intro env mdb st req e st₁ evs h
    unfold tenantMiddleware
    rw [h]
  · intro env mdb st req
    unfold tenantMiddleware
    cases hbody : tenantMiddlewareBody env mdb st req with
    | mk exr rest =>
      obtain ⟨st₁, evs⟩ := rest
      cases exr with
      | error e => simp [handledResponse]
      | ok r =>
        rcases bodyOkShape env mdb st req r st₁ evs hbody with ⟨db, t, tid, rfl⟩ | rfl
        · simp [handledResponse]
        · simp [handledResponse]

/-- Witness for C7: a request whose master initialization fails is
answered with the 500 `TENANT_RESOLUTION_ERROR` response. -/
theorem C7_errors_converted_witness :
    tenantMiddlewareBody
        ⟨fun _ => some ⟨("down").toList⟩, fun _ => none, fun _ => none⟩ []
        ⟨[], none, [], 0⟩ ⟨some (("acme.localhost").toList), ("/x").toList⟩ =
      (Except.error ⟨("down").toList⟩, ⟨[], none, [], 0⟩, [MWEvent.initMaster]) ∧
    tenantMiddleware
        ⟨fun _ => some ⟨("down").toList⟩, fun _ => none, fun _ => none⟩ []
        ⟨[], none, [], 0⟩ ⟨some (("acme.localhost").toList), ("/x").toList⟩ =
      (Response.errorResponse 500 (("TENANT_RESOLUTION_ERROR").toList),
       ⟨[], none, [], 0⟩, [MWEvent.initMaster]) :=
  ⟨rfl, C7_errors_converted.1 _ _ _ _ _ _ _ rfl⟩
